import Mathlib

/-!
Verification of the homepage-section ordering and swap subsystem of
`heavy_main.py` (routes `/homepage/add`, `/homepage/list`,
`/homepage/edit/{s_no}`, `/homepage/delete/{s_no}`, `/public/homepage`).

The document store is modelled as a list of section documents carrying a
MongoDB-style unique `_id` (a natural number issued by the store) together
with the fields the code writes: `s_no` (the display position), the stored
category ObjectId and the stored list of product ObjectIds.  ObjectIds are
modelled as their canonical (lower-case) 24-hex-digit string form;
`ObjectId(raw)` on a string argument succeeds exactly when `raw` is a
24-character hexadecimal string, and compares equal up to case, which the
canonicalisation captures.  The category and product collections are the
read-only collaborators of the subsystem and are modelled as association
lists keyed by canonical ObjectId.
-/

namespace HomepageSpec

/-- One homepage-section document as stored in `homepage_collection`:
MongoDB `_id`, the `s_no` position, the stored category ObjectId and the
stored product ObjectIds. -/
structure Sec where
  id : Nat
  s_no : Int
  category_id : String
  products : List String
deriving Repr, DecidableEq

/-- A document of `category_collection`, restricted to the fields the
subsystem reads: `_id` and `name`. -/
structure Category where
  id : String
  name : String
deriving Repr, DecidableEq

/-- A document of `product_collection`, restricted to the fields the
subsystem reads.  `name` is always present (every insertion path of the
repository sets it); the remaining fields are read with `.get` in the code
and therefore optional. -/
structure Product where
  id : String
  name : String
  display_image : Option String := none
  hover_image : Option String := none
  selling_price : Option Int := none
  mrp : Option Int := none
  availability : Option String := none
deriving Repr, DecidableEq

/-- The read-only collaborators: the category and product collections. -/
structure Env where
  categories : List Category
  products : List Product
deriving Repr, DecidableEq

/-- The mutable state owned by the subsystem: the `homepage_collection`
documents in natural (insertion) order, plus the next `_id` the store will
issue.  The store guarantees `_id` values are unique. -/
structure HomepageState where
  sections : List Sec
  nextId : Nat
deriving Repr, DecidableEq

/-- The error outcomes of the three mutating routes, one constructor per
`raise HTTPException` site. -/
inductive ApiError where
  /-- HTTP 400 "Max 4 homepage sections allowed". -/
  | maxSections
  /-- HTTP 400 "Invalid category_id" (ObjectId parse failure). -/
  | invalidCategoryId
  /-- HTTP 404 "Category not found". -/
  | categoryNotFound
  /-- HTTP 400 "At least 1 product required". -/
  | atLeastOneProduct
  /-- HTTP 400 "Max 12 products allowed". -/
  | maxProducts
  /-- HTTP 400 "Invalid product id" naming the offending entry. -/
  | invalidProductId (pid : String)
  /-- HTTP 404 "Homepage section not found". -/
  | sectionNotFound
deriving Repr, DecidableEq

/-- Hexadecimal digit test, as accepted by `bson.ObjectId`. -/
def isHexDigit (c : Char) : Bool :=
  c.isDigit || (Char.ofNat 97 ≤ c && c ≤ Char.ofNat 102)
    || (Char.ofNat 65 ≤ c && c ≤ Char.ofNat 70)

/-- Lower-case one hexadecimal digit.  On strings accepted by the
ObjectId guard (hex digits only) this agrees with full Unicode
lower-casing, since only `A`–`F` can occur as upper-case letters. -/
def lowerHexChar (c : Char) : Char :=
  if c = Char.ofNat 65 then Char.ofNat 97
  else if c = Char.ofNat 66 then Char.ofNat 98
  else if c = Char.ofNat 67 then Char.ofNat 99
  else if c = Char.ofNat 68 then Char.ofNat 100
  else if c = Char.ofNat 69 then Char.ofNat 101
  else if c = Char.ofNat 70 then Char.ofNat 102
  else c

/-- Parsing `ObjectId(raw)` on a string succeeds exactly when `raw` is 24 hex
characters; the resulting ObjectId is case-insensitive, so its canonical
form is the lower-cased string. -/
def parseOid (raw : String) : Option String :=
  if raw.length == 24 && raw.toList.all isHexDigit then
    some (String.mk (raw.toList.map lowerHexChar))
  else none

/-- Lookup `category_collection.find_one` by id. -/
def findCategory (env : Env) (cid : String) : Option Category :=
  env.categories.find? (fun c => c.id == cid)

/-- Lookup `product_collection.find` with an id filter: the products of the
collection, in collection order, whose `_id` occurs among `pids`. -/
def findProducts (env : Env) (pids : List String) : List Product :=
  env.products.filter (fun p => pids.contains p.id)

/-- Parse a list of raw product ids as the code does, returning the first
invalid raw id if any, else the canonical ObjectIds in order. -/
def parseProductIds : List String → Except String (List String)
  | [] => .ok []
  | pid :: rest =>
    match parseOid pid with
    | none => .error pid
    | some canon =>
      match parseProductIds rest with
      | .error bad => .error bad
      | .ok canons => .ok (canon :: canons)

/-- Maximum `s_no` over a list of sections
(`find_one(sort=[("s_no", -1)])`), `none` when the collection is empty. -/
def maxSno : List Sec → Option Int
  | [] => none
  | s :: rest =>
    match maxSno rest with
    | none => some s.s_no
    | some m => some (max s.s_no m)

/-- Model of `update_one` filtered by id: apply `f` to the first document whose
`_id` is `i` (the store keeps `_id` unique, so at most one matches). -/
def updateById : List Sec → Nat → (Sec → Sec) → List Sec
  | [], _, _ => []
  | s :: rest, i, f =>
    if s.id == i then f s :: rest else s :: updateById rest i f

/-- Model of `delete_one` filtered by position: remove the first document with that `s_no`. -/
def deleteBySno : List Sec → Int → List Sec
  | [], _ => []
  | s :: rest, n => if s.s_no == n then rest else s :: deleteBySno rest n

/-- Route `POST /homepage/add` (`add_homepage_section`): capacity check, category
validation, product-count and product-id validation, then insert at
`s_no` = (maximum existing `s_no`) + 1, defaulting to 1 on an empty
collection.  Returns the new state and the assigned `s_no`. -/
def add_homepage_section (env : Env) (st : HomepageState)
    (category_id : String) (product_ids : List String) :
    Except ApiError (HomepageState × Int) :=
  if st.sections.length ≥ 4 then .error .maxSections
  else
    match parseOid category_id with
    | none => .error .invalidCategoryId
    | some cat_id =>
      if (findCategory env cat_id).isNone then .error .categoryNotFound
      else if product_ids.length == 0 then .error .atLeastOneProduct
      else if product_ids.length > 12 then .error .maxProducts
      else
        match parseProductIds product_ids with
        | .error pid => .error (.invalidProductId pid)
        | .ok product_obj_ids =>
          let next_s_no : Int :=
            match maxSno st.sections with
            | some m => m + 1
            | none => 1
          .ok ({ sections := st.sections ++
                   [{ id := st.nextId, s_no := next_s_no,
                      category_id := cat_id, products := product_obj_ids }],
                 nextId := st.nextId + 1 }, next_s_no)

/-- One rendered section of `GET /homepage/list`. -/
structure SectionView where
  s_no : Int
  category_id : String
  category_name : String
  products : List (String × String × Option String)
deriving Repr, DecidableEq

/-- Insert a section into a list sorted ascending by `s_no`. -/
def insertBySno (s : Sec) : List Sec → List Sec
  | [] => [s]
  | t :: rest =>
    if s.s_no ≤ t.s_no then s :: t :: rest else t :: insertBySno s rest

/-- Model of `homepage_collection.find` sorted by `s_no` ascending: the documents sorted
ascending by `s_no` (stable). -/
def sortBySno : List Sec → List Sec
  | [] => []
  | s :: rest => insertBySno s (sortBySno rest)

/-- Render one section for `GET /homepage/list`: the category name joined
best-effort ("N/A" when the reference no longer resolves) and the products
that still resolve, projected to `(_id, name, display_image)`. -/
def renderSection (env : Env) (sec : Sec) : SectionView :=
  { s_no := sec.s_no
    category_id := sec.category_id
    category_name :=
      match findCategory env sec.category_id with
      | some cat => cat.name
      | none => "N/A"
    products :=
      (findProducts env sec.products).map
        (fun p => (p.id, p.name, p.display_image)) }

/-- Route `GET /homepage/list` (`list_homepage_sections`): every stored section,
sorted ascending by `s_no`, each rendered with its joined category name and
resolved products. -/
def list_homepage_sections (env : Env) (st : HomepageState) :
    List SectionView :=
  (sortBySno st.sections).map (renderSection env)

/-- One product entry of `GET /public/homepage` (wider projection than the
admin listing). -/
structure PublicProductView where
  id : String
  name : String
  display_image : Option String
  hover_image : Option String
  price : Option Int
  oldPrice : Option Int
  availability : Option String
deriving Repr, DecidableEq

/-- One rendered section of `GET /public/homepage`. -/
structure PublicSectionView where
  s_no : Int
  category_id : String
  category_name : String
  products : List PublicProductView
deriving Repr, DecidableEq

/-- Render one section for `GET /public/homepage`. -/
def renderPublicSection (env : Env) (sec : Sec) : PublicSectionView :=
  { s_no := sec.s_no
    category_id := sec.category_id
    category_name :=
      match findCategory env sec.category_id with
      | some cat => cat.name
      | none => "N/A"
    products :=
      (findProducts env sec.products).map
        (fun p =>
          { id := p.id
            name := p.name
            display_image := p.display_image
            hover_image := p.hover_image
            price := p.selling_price
            oldPrice := p.mrp
            availability := p.availability }) }

/-- Route `GET /public/homepage` (`public_homepage`): same listing as
`list_homepage_sections` with a wider product projection and no
authorization requirement. -/
def public_homepage (env : Env) (st : HomepageState) :
    List PublicSectionView :=
  (sortBySno st.sections).map (renderPublicSection env)

/-- The patch `{"$set": {"s_no": n}}`. -/
def setSno (n : Int) (d : Sec) : Sec := { d with s_no := n }

/-- The patch `{"$set": {"category_id": c, "products": ps}}`. -/
def setFields (c : String) (ps : List String) (d : Sec) : Sec :=
  { d with category_id := c, products := ps }

/-- The patch `{"$set": {"category_id": c, "products": ps, "s_no": n}}`. -/
def setFieldsSno (c : String) (ps : List String) (n : Int) (d : Sec) : Sec :=
  { d with category_id := c, products := ps, s_no := n }

/-- Python `data.s_no or s_no`: `None` and `0` are falsy, so both fall back
to the path parameter `s_no`. -/
def pyOr : Option Int → Int → Int
  | none, d => d
  | some v, d => if v = 0 then d else v

/-- Route `PUT /homepage/edit` (`edit_homepage_section`): category and
product validation first, then the existence check on the target, then the
safe-swap logic: field-only update when the position is unchanged, a direct
move when the desired position is free, and the three-step swap through the
temporary `s_no = -1` when another document holds the desired position. -/
def edit_homepage_section (env : Env) (st : HomepageState) (s_no : Int)
    (category_id : String) (product_ids : List String)
    (data_s_no : Option Int) : Except ApiError HomepageState :=
  match parseOid category_id with
  | none => .error .invalidCategoryId
  | some cat_id =>
    if (findCategory env cat_id).isNone then .error .categoryNotFound
    else if product_ids.length == 0 then .error .atLeastOneProduct
    else if product_ids.length > 12 then .error .maxProducts
    else
      match parseProductIds product_ids with
      | .error pid => .error (.invalidProductId pid)
      | .ok product_obj_ids =>
        match st.sections.find? (fun d => d.s_no == s_no) with
        | none => .error .sectionNotFound
        | some current =>
          let new_sno := pyOr data_s_no s_no
          if new_sno ≠ s_no then
            match st.sections.find? (fun d => d.s_no == new_sno) with
            | some other =>
              let sections1 := updateById st.sections other.id (setSno (-1))
              let sections2 := updateById sections1 current.id
                (setFieldsSno cat_id product_obj_ids new_sno)
              let sections3 := updateById sections2 other.id (setSno s_no)
              .ok { st with sections := sections3 }
            | none =>
              .ok { st with sections := (updateById st.sections current.id
                (setFieldsSno cat_id product_obj_ids new_sno)) }
          else
            .ok { st with sections := (updateById st.sections current.id
              (setFields cat_id product_obj_ids)) }

/-- Route `DELETE /homepage/delete` (`delete_homepage_section`):
`delete_one({"s_no": s_no})`, 404 when nothing matched. -/
def delete_homepage_section (st : HomepageState) (s_no : Int) :
    Except ApiError HomepageState :=
  if (st.sections.find? (fun d => d.s_no == s_no)).isSome then
    .ok { st with sections := deleteBySno st.sections s_no }
  else .error .sectionNotFound

/-- One logical call against the subsystem, with arbitrary arguments. -/
inductive Op where
  | add (category_id : String) (product_ids : List String)
  | edit (s_no : Int) (category_id : String) (product_ids : List String)
      (data_s_no : Option Int)
  | del (s_no : Int)
deriving Repr, DecidableEq

/-- Apply one call: a failed call (HTTP error response) leaves the store
unchanged. -/
def applyOp (env : Env) (st : HomepageState) : Op → HomepageState
  | .add c ps =>
    match add_homepage_section env st c ps with
    | .ok (st2, _) => st2
    | .error _ => st
  | .edit n c ps d =>
    match edit_homepage_section env st n c ps d with
    | .ok st2 => st2
    | .error _ => st
  | .del n =>
    match delete_homepage_section st n with
    | .ok st2 => st2
    | .error _ => st

/-- Apply a sequence of calls in order. -/
def runOps (env : Env) (st : HomepageState) : List Op → HomepageState
  | [] => st
  | op :: rest => runOps env (applyOp env st op) rest

/-- Store-level well-formedness: MongoDB `_id` values are unique, and the
`_id` counter dominates every issued `_id`. -/
def WFids (st : HomepageState) : Prop :=
  (st.sections.map (fun s => s.id)).Nodup ∧
    ∀ s ∈ st.sections, s.id < st.nextId

/-- The positions of the stored sections are pairwise distinct. -/
def distinctSno (st : HomepageState) : Prop :=
  (st.sections.map (fun s => s.s_no)).Nodup

instance : DecidablePred WFids := fun st => by
  unfold WFids; infer_instance

instance : DecidablePred distinctSno := fun st => by
  unfold distinctSno; infer_instance

/-! ### Concrete fixtures used by witnesses and counterexamples -/

/-- Canonical ObjectId of a category used in concrete scenarios. -/
def catOidA : String := "aaaaaaaaaaaaaaaaaaaaaaaa"

/-- Canonical ObjectId of a category used in concrete scenarios. -/
def catOidB : String := "bbbbbbbbbbbbbbbbbbbbbbbb"

/-- Canonical ObjectId of a category used in concrete scenarios. -/
def catOidC : String := "cccccccccccccccccccccccc"

/-- Canonical ObjectId of the category that resolves in `envW`. -/
def catOidD : String := "dddddddddddddddddddddddd"

/-- Canonical ObjectId of a product used in concrete scenarios. -/
def prodOid1 : String := "111111111111111111111111"

/-- Canonical ObjectId of a product used in concrete scenarios. -/
def prodOid2 : String := "222222222222222222222222"

/-- Canonical ObjectId of a product used in concrete scenarios. -/
def prodOid3 : String := "333333333333333333333333"

/-- Canonical ObjectId of the product that resolves in `envW`. -/
def prodOid4 : String := "444444444444444444444444"

/-- A collaborator environment where `catOidD` and `prodOid4` resolve. -/
def envW : Env :=
  { categories := [{ id := catOidD, name := "Featured" }]
    products := [{ id := prodOid4, name := "Gadget" }] }

/-- Stored section at position 1. -/
def sec1 : Sec :=
  { id := 1, s_no := 1, category_id := catOidA, products := [prodOid1] }

/-- Stored section at position 2. -/
def sec2 : Sec :=
  { id := 2, s_no := 2, category_id := catOidB, products := [prodOid2] }

/-- Stored section at position 3. -/
def sec3 : Sec :=
  { id := 3, s_no := 3, category_id := catOidC, products := [prodOid3] }

/-- Store with sections at positions 1, 2, 3. -/
def st123 : HomepageState := { sections := [sec1, sec2, sec3], nextId := 4 }

/-- Store with sections at positions 1, 2. -/
def st12 : HomepageState := { sections := [sec1, sec2], nextId := 3 }

/-- A malformed ObjectId string. -/
def badOid : String := "not-an-objectid"

/-- Store with four sections (at capacity). -/
def st4 : HomepageState :=
  { sections := [sec1, sec2, sec3,
      { id := 4, s_no := 4, category_id := catOidA, products := [prodOid1] }]
    nextId := 5 }

/-- State `st12` after `delete(1)`. -/
def stW4 : HomepageState := { sections := [sec2], nextId := 3 }

/-- State `stW4` after a successful `add`: the new section gets position 3. -/
def stW4b : HomepageState :=
  { sections := [sec2,
      { id := 3, s_no := 3, category_id := catOidD, products := [prodOid4] }]
    nextId := 4 }

/-- Expected store after the `edit(1, ..., desired_position = 3)` swap on
`st123`. -/
def stC2after : HomepageState :=
  { sections := [setFieldsSno catOidD [prodOid4] 3 sec1, sec2, setSno 1 sec3]
    nextId := 4 }

/-- Expected store after a field-only `edit` of position 1 on `st123`. -/
def stC10 : HomepageState :=
  { sections := [setFields catOidD [prodOid4] sec1, sec2, sec3]
    nextId := 4 }

/-- A section stranded at the sentinel position `-1`. -/
def secSent : Sec :=
  { id := 7, s_no := -1, category_id := catOidA, products := [prodOid1] }

/-- A store whose only section sits at the sentinel position `-1`. -/
def stSentinel : HomepageState := { sections := [secSent], nextId := 8 }

/-- A section whose single product reference does not resolve in `envC6`. -/
def secC6 : Sec :=
  { id := 1, s_no := 1, category_id := catOidA, products := [prodOid1] }

/-- Collaborators for the dangling-reference scenario: the category
resolves, the product collection is empty. -/
def envC6 : Env :=
  { categories := [{ id := catOidA, name := "Shoes" }], products := [] }

/-- Store for the dangling-reference scenario. -/
def stC6 : HomepageState := { sections := [secC6], nextId := 2 }

/-! ### Basic lemmas about the store primitives -/

lemma updateById_map_id (l : List Sec) (i : Nat) (f : Sec → Sec)
    (hf : ∀ d, (f d).id = d.id) :
    (updateById l i f).map (fun s => s.id) = l.map (fun s => s.id) := by
  induction l with
  | nil => rfl
  | cons s rest ih =>
    unfold updateById
    by_cases h : (s.id == i) = true
    · simp [h, hf]
    · simp only [h, Bool.false_eq_true, if_false, List.map_cons, ih]

lemma updateById_map_sno (l : List Sec) (i : Nat) (f : Sec → Sec)
    (hf : ∀ d, (f d).s_no = d.s_no) :
    (updateById l i f).map (fun s => s.s_no) = l.map (fun s => s.s_no) := by
  induction l with
  | nil => rfl
  | cons s rest ih =>
    unfold updateById
    by_cases h : (s.id == i) = true
    · simp [h, hf]
    · simp only [h, Bool.false_eq_true, if_false, List.map_cons, ih]

lemma updateById_length (l : List Sec) (i : Nat) (f : Sec → Sec) :
    (updateById l i f).length = l.length := by
  induction l with
  | nil => rfl
  | cons s rest ih =>
    unfold updateById
    by_cases h : (s.id == i) = true
    · simp [h]
    · simp only [h, Bool.false_eq_true, if_false, List.length_cons, ih]

lemma map_ite_id (l : List Sec) (i : Nat) (f : Sec → Sec)
    (h : ∀ t ∈ l, t.id ≠ i) :
    l.map (fun s => if s.id = i then f s else s) = l := by
  induction l with
  | nil => rfl
  | cons s rest ih =>
    simp only [List.map_cons]
    rw [if_neg (h s (List.mem_cons_self s rest)),
      ih (fun t ht => h t (List.mem_cons_of_mem s ht))]

/-- With unique `_id` values, updating the first match is the same as
updating every match. -/
lemma updateById_eq_map (l : List Sec) (i : Nat) (f : Sec → Sec)
    (h : (l.map (fun s => s.id)).Nodup) :
    updateById l i f = l.map (fun s => if s.id = i then f s else s) := by
  induction l with
  | nil => rfl
  | cons s rest ih =>
    simp only [List.map_cons, List.nodup_cons, List.mem_map] at h
    unfold updateById
    by_cases hs : s.id = i
    · rw [if_pos (by simpa using hs)]
      simp only [List.map_cons, if_pos hs]
      have hrest : ∀ t ∈ rest, t.id ≠ i := by
        intro t ht hti
        exact h.1 ⟨t, ht, hti.trans hs.symm⟩
      rw [map_ite_id rest i f hrest]
    · rw [if_neg (by simpa using hs)]
      simp only [List.map_cons, if_neg hs]
      rw [ih h.2]

lemma deleteBySno_sublist (l : List Sec) (n : Int) :
    List.Sublist (deleteBySno l n) l := by
  induction l with
  | nil => exact List.Sublist.refl _
  | cons s rest ih =>
    unfold deleteBySno
    by_cases h : (s.s_no == n) = true
    · rw [if_pos h]
      exact List.sublist_cons_self s rest
    · rw [if_neg (by simp_all)]
      exact List.Sublist.cons₂ s ih

lemma maxSno_ge (l : List Sec) (s : Sec) (hs : s ∈ l) :
    ∃ m, maxSno l = some m ∧ s.s_no ≤ m := by
  induction l with
  | nil => cases hs
  | cons t rest ih =>
    unfold maxSno
    cases hrest : maxSno rest with
    | none =>
      rcases List.mem_cons.mp hs with h | h
      · exact ⟨t.s_no, rfl, le_of_eq (by rw [h])⟩
      · rcases ih h with ⟨m, hm, _⟩
        rw [hrest] at hm; cases hm
    | some m =>
      refine ⟨max t.s_no m, rfl, ?_⟩
      rcases List.mem_cons.mp hs with h | h
      · rw [h]; exact le_max_left _ _
      · rcases ih h with ⟨m2, hm2, hle⟩
        rw [hrest] at hm2
        cases hm2
        exact le_trans hle (le_max_right _ _)

lemma insertBySno_perm (s : Sec) (l : List Sec) :
    List.Perm (insertBySno s l) (s :: l) := by
  induction l with
  | nil => exact List.Perm.refl _
  | cons t rest ih =>
    unfold insertBySno
    by_cases h : s.s_no ≤ t.s_no
    · rw [if_pos h]
    · rw [if_neg h]
      exact (List.Perm.cons t ih).trans (List.Perm.swap s t rest)

lemma sortBySno_perm (l : List Sec) : List.Perm (sortBySno l) l := by
  induction l with
  | nil => exact List.Perm.refl _
  | cons s rest ih =>
    exact (insertBySno_perm s (sortBySno rest)).trans (List.Perm.cons s ih)

lemma sortBySno_length (l : List Sec) : (sortBySno l).length = l.length :=
  (sortBySno_perm l).length_eq

/-! ### Inversion lemmas: what a successful call did to the store -/

/-- A successful `add` happened below capacity and appended one document at
`s_no` = (maximum existing `s_no`) + 1, defaulting to 1. -/
lemma add_ok_cases (env : Env) (st : HomepageState) (c : String)
    (ps : List String) (st2 : HomepageState) (p : Int)
    (h : add_homepage_section env st c ps = .ok (st2, p)) :
    st.sections.length < 4 ∧
    p = (match maxSno st.sections with | some m => m + 1 | none => 1) ∧
    ∃ cat pids, parseOid c = some cat ∧ parseProductIds ps = .ok pids ∧
      st2 = { sections := st.sections ++
                [{ id := st.nextId, s_no := p, category_id := cat,
                   products := pids }],
              nextId := st.nextId + 1 } := by
  unfold add_homepage_section at h
  split at h
  · exact absurd h (by simp)
  next hlt =>
    split at h
    · exact absurd h (by simp)
    next cat hcat =>
      split at h
      · exact absurd h (by simp)
      split at h
      · exact absurd h (by simp)
      split at h
      · exact absurd h (by simp)
      split at h
      · exact absurd h (by simp)
      next pids hpids =>
        simp only [Except.ok.injEq, Prod.mk.injEq] at h
        refine ⟨by omega, h.2.symm, cat, pids, hcat, hpids, ?_⟩
        rw [← h.1, ← h.2]

/-- A successful `delete` removed the first document at the given `s_no`. -/
lemma delete_ok_cases (st : HomepageState) (n : Int) (st2 : HomepageState)
    (h : delete_homepage_section st n = .ok st2) :
    st2 = { st with sections := deleteBySno st.sections n } := by
  unfold delete_homepage_section at h
  split at h
  · simp only [Except.ok.injEq] at h
    exact h.symm
  · exact absurd h (by simp)

/-- A successful `edit` passed validation, found the target, and took one of
the three branches of the safe-swap logic. -/
lemma edit_ok_cases (env : Env) (st : HomepageState) (n : Int) (c : String)
    (ps : List String) (d : Option Int) (st2 : HomepageState)
    (h : edit_homepage_section env st n c ps d = .ok st2) :
    ∃ cat pids cur,
      parseOid c = some cat ∧
      parseProductIds ps = .ok pids ∧
      st.sections.find? (fun s2 => s2.s_no == n) = some cur ∧
      st2.nextId = st.nextId ∧
      ((pyOr d n = n ∧
        st2.sections = updateById st.sections cur.id (setFields cat pids)) ∨
       (pyOr d n ≠ n ∧
        ((∃ other,
            st.sections.find? (fun s2 => s2.s_no == pyOr d n) = some other ∧
            st2.sections =
              updateById
                (updateById
                  (updateById st.sections other.id (setSno (-1)))
                  cur.id (setFieldsSno cat pids (pyOr d n)))
                other.id (setSno n)) ∨
         (st.sections.find? (fun s2 => s2.s_no == pyOr d n) = none ∧
          st2.sections = updateById st.sections cur.id
              (setFieldsSno cat pids (pyOr d n)))))) := by
  unfold edit_homepage_section at h
  split at h
  · exact absurd h (by simp)
  next cat hcat =>
    split at h
    · exact absurd h (by simp)
    split at h
    · exact absurd h (by simp)
    split at h
    · exact absurd h (by simp)
    split at h
    · exact absurd h (by simp)
    next pids hpids =>
      split at h
      · exact absurd h (by simp)
      next cur hcur =>
        refine ⟨cat, pids, cur, hcat, hpids, hcur, ?_⟩
        dsimp only at h
        split at h
        next hne =>
          split at h
          next other hoth =>
            simp only [Except.ok.injEq] at h
            rw [← h]
            exact ⟨rfl, Or.inr ⟨hne, Or.inl ⟨other, hoth, rfl⟩⟩⟩
          next hnone =>
            simp only [Except.ok.injEq] at h
            rw [← h]
            exact ⟨rfl, Or.inr ⟨hne, Or.inr ⟨hnone, rfl⟩⟩⟩
        next heq =>
          simp only [Except.ok.injEq] at h
          rw [← h]
          exact ⟨rfl, Or.inl ⟨not_not.mp heq, rfl⟩⟩

/-! ### Preservation of store well-formedness and position distinctness -/

lemma setSno_pres_id (m : Int) (d : Sec) : (setSno m d).id = d.id := rfl

lemma setFields_pres_id (c : String) (ps : List String) (d : Sec) :
    (setFields c ps d).id = d.id := rfl

lemma setFieldsSno_pres_id (c : String) (ps : List String) (m : Int)
    (d : Sec) : (setFieldsSno c ps m d).id = d.id := rfl

lemma setFields_pres_sno (c : String) (ps : List String) (d : Sec) :
    (setFields c ps d).s_no = d.s_no := rfl

/-- Read a `Nodup` of a mapped list as a fact about two-element sublists. -/
lemma pairwise_of_nodup_map (l : List Sec) (g : Sec → Int)
    (hd : (l.map g).Nodup) :
    ∀ a b, List.Sublist [a, b] l → g a ≠ g b := by
  intro a b hab
  have hp : (l.map g).Pairwise (fun x y => x ≠ y) := hd
  exact List.pairwise_iff_forall_sublist.mp (List.pairwise_map.mp hp) hab

lemma pairwise_of_nodup_map_id (l : List Sec) (g : Sec → Nat)
    (hd : (l.map g).Nodup) :
    ∀ a b, List.Sublist [a, b] l → g a ≠ g b := by
  intro a b hab
  have hp : (l.map g).Pairwise (fun x y => x ≠ y) := hd
  exact List.pairwise_iff_forall_sublist.mp (List.pairwise_map.mp hp) hab

/-- Build a `Nodup` of a mapped list from a fact about two-element
sublists. -/
lemma nodup_map_of_pairwise (l : List Sec) (g : Sec → Int)
    (h : ∀ a b, List.Sublist [a, b] l → g a ≠ g b) : (l.map g).Nodup := by
  show (l.map g).Pairwise (fun x y => x ≠ y)
  rw [List.pairwise_map, List.pairwise_iff_forall_sublist]
  intro a b hab
  exact h a b hab

/-- A successful `add` preserves `_id` well-formedness and position
distinctness: the fresh document's position strictly exceeds every existing
one. -/
lemma add_ok_inv (env : Env) (st : HomepageState) (c : String)
    (ps : List String) (st2 : HomepageState) (p : Int)
    (h : add_homepage_section env st c ps = .ok (st2, p))
    (hw : WFids st) (hd : distinctSno st) : WFids st2 ∧ distinctSno st2 := by
  obtain ⟨-, hp, cat, pids, -, -, hst2⟩ := add_ok_cases env st c ps st2 p h
  subst hst2
  refine ⟨⟨?_, ?_⟩, ?_⟩
  · dsimp only
    rw [List.map_append]
    refine List.nodup_append.mpr ⟨hw.1, by simp, ?_⟩
    intro a ha hb
    simp only [List.map_cons, List.map_nil, List.mem_singleton] at hb
    rcases List.mem_map.mp ha with ⟨t, ht, hta⟩
    have := hw.2 t ht
    omega
  · intro s hs
    rcases List.mem_append.mp hs with hmem | hmem
    · have := hw.2 s hmem
      simp only []
      omega
    · simp only [List.mem_singleton] at hmem
      subst hmem
      simp
  · show distinctSno _
    unfold distinctSno
    dsimp only
    rw [List.map_append]
    refine List.nodup_append.mpr ⟨hd, by simp, ?_⟩
    intro a ha hb
    simp only [List.map_cons, List.map_nil, List.mem_singleton] at hb
    rcases List.mem_map.mp ha with ⟨t, ht, hta⟩
    rcases maxSno_ge st.sections t ht with ⟨m, hm, hle⟩
    rw [hm] at hp
    have hp2 : p = m + 1 := hp
    subst hb hta
    omega

/-- A successful `edit` leaves the `_id` column of the store unchanged. -/
lemma edit_ok_map_id (env : Env) (st : HomepageState) (n : Int) (c : String)
    (ps : List String) (d : Option Int) (st2 : HomepageState)
    (h : edit_homepage_section env st n c ps d = .ok st2) :
    st2.sections.map (fun s => s.id) = st.sections.map (fun s => s.id) := by
  obtain ⟨cat, pids, cur, -, -, -, -, hbr⟩ :=
    edit_ok_cases env st n c ps d st2 h
  rcases hbr with ⟨-, hs⟩ | ⟨-, ⟨other, -, hs⟩ | ⟨-, hs⟩⟩ <;> rw [hs]
  · exact updateById_map_id _ _ (setFields cat pids) (fun d2 => rfl)
  · rw [updateById_map_id _ _ (setSno n) (fun d2 => rfl),
      updateById_map_id _ _ (setFieldsSno cat pids (pyOr d n))
        (fun d2 => rfl),
      updateById_map_id _ _ (setSno (-1)) (fun d2 => rfl)]
  · exact updateById_map_id _ _ (setFieldsSno cat pids (pyOr d n))
      (fun d2 => rfl)

/-- A successful `edit` preserves `_id` well-formedness and position
distinctness.  In the swap branch the three-step exchange ends with the
target's and the other document's positions exchanged, a transposition of
the position column. -/
lemma edit_ok_inv (env : Env) (st : HomepageState) (n : Int) (c : String)
    (ps : List String) (d : Option Int) (st2 : HomepageState)
    (h : edit_homepage_section env st n c ps d = .ok st2)
    (hw : WFids st) (hd : distinctSno st) : WFids st2 ∧ distinctSno st2 := by
  have hids := edit_ok_map_id env st n c ps d st2 h
  obtain ⟨cat, pids, cur, -, -, hcur, hnext, hbr⟩ :=
    edit_ok_cases env st n c ps d st2 h
  have hcurmem : cur ∈ st.sections := List.mem_of_find?_eq_some hcur
  have hcursno : cur.s_no = n := by
    have := List.find?_some hcur
    simpa using this
  have hwf2 : WFids st2 := by
    refine ⟨by rw [hids]; exact hw.1, ?_⟩
    intro s hs
    have : s.id ∈ st2.sections.map (fun t => t.id) := List.mem_map_of_mem _ hs
    rw [hids] at this
    rcases List.mem_map.mp this with ⟨t, ht, hts⟩
    rw [hnext, ← hts]
    exact hw.2 t ht
  refine ⟨hwf2, ?_⟩
  have hNodupL : st.sections.Nodup := List.Nodup.of_map _ hd
  have hsnoInj : ∀ x ∈ st.sections, ∀ y ∈ st.sections,
      x.s_no = y.s_no → x = y := fun x hx y hy hxy =>
    List.inj_on_of_nodup_map hd hx hy hxy
  have hidInj : ∀ x ∈ st.sections, ∀ y ∈ st.sections,
      x.id = y.id → x = y := fun x hx y hy hxy =>
    List.inj_on_of_nodup_map hw.1 hx hy hxy
  have hsnoPair := pairwise_of_nodup_map st.sections (fun s => s.s_no) hd
  have hidPair := pairwise_of_nodup_map_id st.sections (fun s => s.id) hw.1
  rcases hbr with ⟨-, hs⟩ | ⟨hne, ⟨other, hoth, hs⟩ | ⟨hfree, hs⟩⟩
  · -- field-only update: the position column is unchanged
    show (st2.sections.map (fun s => s.s_no)).Nodup
    rw [hs, updateById_map_sno _ _ (setFields cat pids) (fun d2 => rfl)]
    exact hd
  · -- three-step swap with the document holding the desired position
    have hothmem : other ∈ st.sections := List.mem_of_find?_eq_some hoth
    have hothsno : other.s_no = pyOr d n := by
      have := List.find?_some hoth
      simpa using this
    have hco : cur.id ≠ other.id := by
      intro hceq
      have : cur = other := hidInj cur hcurmem other hothmem hceq
      rw [this, hothsno] at hcursno
      exact hne hcursno
    rw [updateById_eq_map _ _ _ hw.1] at hs
    have hid1 : ((st.sections.map (fun s =>
        if s.id = other.id then setSno (-1) s else s)).map
        (fun s => s.id)) = st.sections.map (fun s => s.id) := by
      rw [List.map_map]
      refine List.map_congr_left ?_
      intro a _
      rw [Function.comp_apply]
      by_cases hai : a.id = other.id
      · rw [if_pos hai]; rfl
      · rw [if_neg hai]
    have hnd1 : ((st.sections.map (fun s =>
        if s.id = other.id then setSno (-1) s else s)).map
        (fun s => s.id)).Nodup := by
      rw [hid1]; exact hw.1
    rw [updateById_eq_map _ _ _ hnd1] at hs
    have hid2 : (((st.sections.map (fun s =>
        if s.id = other.id then setSno (-1) s else s)).map (fun s =>
        if s.id = cur.id then setFieldsSno cat pids (pyOr d n) s else s)).map
        (fun s => s.id)) = st.sections.map (fun s => s.id) := by
      rw [List.map_map, List.map_map]
      refine List.map_congr_left ?_
      intro a _
      rw [Function.comp_apply, Function.comp_apply]
      by_cases hai : a.id = other.id
      · rw [if_pos hai]
        by_cases hac : (setSno (-1) a).id = cur.id
        · rw [if_pos hac]; rfl
        · rw [if_neg hac]; rfl
      · rw [if_neg hai]
        by_cases hac : a.id = cur.id
        · rw [if_pos hac]; rfl
        · rw [if_neg hac]
    have hnd2 : (((st.sections.map (fun s =>
        if s.id = other.id then setSno (-1) s else s)).map (fun s =>
        if s.id = cur.id then setFieldsSno cat pids (pyOr d n) s else s)).map
        (fun s => s.id)).Nodup := by
      rw [hid2]; exact hw.1
    rw [updateById_eq_map _ _ _ hnd2] at hs
    -- pointwise value of the position column after the three steps
    have hpsi : ∀ x : Sec,
        ((fun s => if s.id = other.id then setSno n s else s)
          ((fun s => if s.id = cur.id then
              setFieldsSno cat pids (pyOr d n) s else s)
            ((fun s => if s.id = other.id then setSno (-1) s else s)
              x))).s_no
        = if x.id = other.id then n
          else if x.id = cur.id then pyOr d n else x.s_no := by
      intro x
      dsimp only
      by_cases hxo : x.id = other.id
      · have h2 : ¬((setSno (-1) x).id = cur.id) :=
          fun hcc => hco ((show x.id = cur.id from hcc) ▸ hxo)
        have h4 : (setSno (-1) x).id = other.id := hxo
        conv_rhs => rw [if_pos hxo]
        conv_lhs => rw [if_pos hxo]
        rw [if_neg h2, if_pos h4]
        rfl
      · by_cases hxc : x.id = cur.id
        · have h5 : ¬((setFieldsSno cat pids (pyOr d n) x).id = other.id) :=
            fun hcc => hxo (show x.id = other.id from hcc)
          conv_rhs => rw [if_neg hxo, if_pos hxc]
          conv_lhs => rw [if_neg hxo]
          rw [if_pos hxc, if_neg h5]
          rfl
        · conv_rhs => rw [if_neg hxo, if_neg hxc]
          conv_lhs => rw [if_neg hxo]
          rw [if_neg hxc, if_neg hxo]
    show (st2.sections.map (fun s => s.s_no)).Nodup
    rw [hs, List.map_map, List.map_map, List.map_map]
    refine nodup_map_of_pairwise _ _ ?_
    intro a b hab
    have ha : a ∈ st.sections := hab.subset (by simp)
    have hb : b ∈ st.sections := hab.subset (by simp)
    have habs := hsnoPair a b hab
    have habi := hidPair a b hab
    simp only [Function.comp_apply]
    rw [hpsi a, hpsi b]
    by_cases hao : a.id = other.id
    · rw [if_pos hao]
      by_cases hbo : b.id = other.id
      · exact absurd (hao.trans hbo.symm) habi
      · rw [if_neg hbo]
        by_cases hbc : b.id = cur.id
        · rw [if_pos hbc]
          exact fun hcc => hne hcc.symm
        · rw [if_neg hbc]
          intro hcc
          have : b = cur := hsnoInj b hb cur hcurmem (by rw [← hcc, hcursno])
          exact hbc (by rw [this])
    · rw [if_neg hao]
      by_cases hac : a.id = cur.id
      · rw [if_pos hac]
        by_cases hbo : b.id = other.id
        · rw [if_pos hbo]
          exact hne
        · rw [if_neg hbo]
          by_cases hbc : b.id = cur.id
          · exact absurd (hac.trans hbc.symm) habi
          · rw [if_neg hbc]
            intro hcc
            have : b = other := hsnoInj b hb other hothmem
              (by rw [← hcc, hothsno])
            exact hbo (by rw [this])
      · rw [if_neg hac]
        by_cases hbo : b.id = other.id
        · rw [if_pos hbo]
          intro hcc
          have : a = cur := hsnoInj a ha cur hcurmem (by rw [hcc, hcursno])
          exact hac (by rw [this])
        · rw [if_neg hbo]
          by_cases hbc : b.id = cur.id
          · rw [if_pos hbc]
            intro hcc
            have : a = other := hsnoInj a ha other hothmem
              (by rw [hcc, hothsno])
            exact hao (by rw [this])
          · rw [if_neg hbc]
            exact habs
  · -- the desired position is free: move the target there directly
    have hfree2 : ∀ s ∈ st.sections, s.s_no ≠ pyOr d n := by
      intro s hs2
      have := List.find?_eq_none.mp hfree s hs2
      simpa using this
    rw [updateById_eq_map _ _ _ hw.1] at hs
    show (st2.sections.map (fun s => s.s_no)).Nodup
    rw [hs, List.map_map]
    refine nodup_map_of_pairwise _ _ ?_
    intro a b hab
    have ha : a ∈ st.sections := hab.subset (by simp)
    have hb : b ∈ st.sections := hab.subset (by simp)
    have habs := hsnoPair a b hab
    have habi := hidPair a b hab
    simp only [Function.comp_apply]
    by_cases hac : a.id = cur.id
    · rw [if_pos hac]
      by_cases hbc : b.id = cur.id
      · exact absurd (hac.trans hbc.symm) habi
      · rw [if_neg hbc]
        intro hcc
        exact hfree2 b hb
          ((show pyOr d n = b.s_no from hcc) ▸ rfl)
    · rw [if_neg hac]
      by_cases hbc : b.id = cur.id
      · rw [if_pos hbc]
        intro hcc
        exact hfree2 a ha (show a.s_no = pyOr d n from hcc)
      · rw [if_neg hbc]
        exact habs

/-- A successful `delete` preserves `_id` well-formedness and position
distinctness (it removes one document). -/
lemma delete_ok_inv (st : HomepageState) (n : Int) (st2 : HomepageState)
    (h : delete_homepage_section st n = .ok st2)
    (hw : WFids st) (hd : distinctSno st) : WFids st2 ∧ distinctSno st2 := by
  have hst2 := delete_ok_cases st n st2 h
  subst hst2
  have hsub := deleteBySno_sublist st.sections n
  refine ⟨⟨?_, ?_⟩, ?_⟩
  · exact List.Nodup.sublist (List.Sublist.map _ hsub) hw.1
  · intro s hs
    exact hw.2 s (hsub.subset hs)
  · exact List.Nodup.sublist (List.Sublist.map _ hsub) hd

/-- Every completed call (successful or failed) preserves `_id`
well-formedness and position distinctness. -/
lemma applyOp_inv (env : Env) (st : HomepageState) (op : Op)
    (hw : WFids st) (hd : distinctSno st) :
    WFids (applyOp env st op) ∧ distinctSno (applyOp env st op) := by
  cases op with
  | add c ps =>
    simp only [applyOp]
    cases hres : add_homepage_section env st c ps with
    | ok pr =>
      cases pr with
      | mk st2 p => exact add_ok_inv env st c ps st2 p hres hw hd
    | error e => exact ⟨hw, hd⟩
  | edit n c ps d =>
    simp only [applyOp]
    cases hres : edit_homepage_section env st n c ps d with
    | ok st2 => exact edit_ok_inv env st n c ps d st2 hres hw hd
    | error e => exact ⟨hw, hd⟩
  | del n =>
    simp only [applyOp]
    cases hres : delete_homepage_section st n with
    | ok st2 => exact delete_ok_inv st n st2 hres hw hd
    | error e => exact ⟨hw, hd⟩

lemma runOps_inv (env : Env) (st : HomepageState) (ops : List Op)
    (hw : WFids st) (hd : distinctSno st) :
    WFids (runOps env st ops) ∧ distinctSno (runOps env st ops) := by
  induction ops generalizing st with
  | nil => exact ⟨hw, hd⟩
  | cons op rest ih =>
    unfold runOps
    obtain ⟨hw2, hd2⟩ := applyOp_inv env st op hw hd
    exact ih _ hw2 hd2

/-- Every completed call keeps the store at no more than 4 documents. -/
lemma applyOp_length (env : Env) (st : HomepageState) (op : Op)
    (h : st.sections.length ≤ 4) :
    (applyOp env st op).sections.length ≤ 4 := by
  cases op with
  | add c ps =>
    simp only [applyOp]
    cases hres : add_homepage_section env st c ps with
    | ok pr =>
      cases pr with
      | mk st2 p =>
        obtain ⟨hlt, -, cat, pids, -, -, hst2⟩ :=
          add_ok_cases env st c ps st2 p hres
        subst hst2
        simp only [List.length_append, List.length_cons, List.length_nil]
        omega
    | error e => exact h
  | edit n c ps d =>
    simp only [applyOp]
    cases hres : edit_homepage_section env st n c ps d with
    | ok st2 =>
      obtain ⟨cat, pids, cur, -, -, -, -, hbr⟩ :=
        edit_ok_cases env st n c ps d st2 hres
      rcases hbr with ⟨-, hs⟩ | ⟨-, ⟨other, -, hs⟩ | ⟨-, hs⟩⟩ <;>
        rw [hs] <;> simp only [updateById_length] <;> exact h
    | error e => exact h
  | del n =>
    simp only [applyOp]
    cases hres : delete_homepage_section st n with
    | ok st2 =>
      have hst2 := delete_ok_cases st n st2 hres
      subst hst2
      have := (deleteBySno_sublist st.sections n).length_le
      simp only []
      omega
    | error e => exact h

lemma runOps_length (env : Env) (st : HomepageState) (ops : List Op)
    (h : st.sections.length ≤ 4) :
    (runOps env st ops).sections.length ≤ 4 := by
  induction ops generalizing st with
  | nil => exact h
  | cons op rest ih =>
    unfold runOps
    exact ih _ (applyOp_length env st op h)

/-- The admin listing returns one view per stored section. -/
lemma list_homepage_length (env : Env) (st : HomepageState) :
    (list_homepage_sections env st).length = st.sections.length := by
  unfold list_homepage_sections
  rw [List.length_map, sortBySno_length]

/-- Every stored section appears (rendered) in the admin listing. -/
lemma mem_list_of_mem_sections (env : Env) (st : HomepageState) (sec : Sec)
    (h : sec ∈ st.sections) :
    renderSection env sec ∈ list_homepage_sections env st := by
  unfold list_homepage_sections
  exact List.mem_map_of_mem _ ((sortBySno_perm st.sections).mem_iff.mpr h)

/-- Every stored section appears (rendered) in the public listing. -/
lemma mem_public_of_mem_sections (env : Env) (st : HomepageState) (sec : Sec)
    (h : sec ∈ st.sections) :
    renderPublicSection env sec ∈ public_homepage env st := by
  unfold public_homepage
  exact List.mem_map_of_mem _ ((sortBySno_perm st.sections).mem_iff.mpr h)

/-- With passing reference validation, an `edit` whose desired position
equals the target position performs the single-document field update. -/
lemma edit_fieldonly (env : Env) (st : HomepageState) (n : Int) (c : String)
    (ps : List String) (d : Option Int) (cat : String) (pids : List String)
    (cur : Sec)
    (hC : parseOid c = some cat)
    (hcat : (findCategory env cat).isNone = false)
    (h1 : (ps.length == 0) = false)
    (h2 : ¬ ps.length > 12)
    (hps : parseProductIds ps = Except.ok pids)
    (hcur : st.sections.find? (fun s => s.s_no == n) = some cur)
    (hpy : pyOr d n = n) :
    edit_homepage_section env st n c ps d =
      Except.ok { st with sections :=
        (updateById st.sections cur.id (setFields cat pids)) } := by
  unfold edit_homepage_section
  rw [hC]
  dsimp only
  rw [hcat]
  simp only [Bool.false_eq_true, if_false]
  rw [h1]
  simp only [Bool.false_eq_true, if_false]
  rw [if_neg h2, hps]
  dsimp only
  rw [hcur]
  dsimp only
  rw [hpy, if_neg (fun hh : n ≠ n => hh rfl)]

/-! ### The claims -/

/-- C1: for every sequence of add/edit/delete operations starting from a
store with pairwise-distinct positions (and the store's own guarantee of
unique `_id` values), the positions of the sections remaining in the store
are pairwise distinct at the end of every operation, for every choice of
arguments the operations accept, including any integer `desired_position`
passed to edit.  Quantifying over all operation lists covers every prefix,
hence the state at the end of each individual operation. -/
theorem homepage_c1_positions_distinct (env : Env) (st : HomepageState)
    (ops : List Op) (hw : WFids st) (hd : distinctSno st) :
    distinctSno (runOps env st ops) :=
  (runOps_inv env st ops hw hd).2

/-- Witness for C1 at a concrete store: an edit that swaps positions 1 and
3, a delete and an add, starting from sections at positions 1, 2, 3. -/
theorem homepage_c1_witness :
    distinctSno (runOps envW st123
      [Op.edit 1 catOidD [prodOid4] (some 3), Op.del 2,
       Op.add catOidD [prodOid4]]) :=
  homepage_c1_positions_distinct envW st123
    [Op.edit 1 catOidD [prodOid4] (some 3), Op.del 2,
     Op.add catOidD [prodOid4]] (by decide) (by decide)

/-- C2: from sections at positions 1, 2, 3,
`edit(target_position = 1, valid references, desired_position = 3)`
terminates with positions 1, 2, 3 all occupied; the section originally at
position 3 is now at position 1 with all other fields unchanged
(`setSno 1 sec3`), the section originally at position 1 is now at position
3 carrying the new category and product fields
(`setFieldsSno catOidD [prodOid4] 3 sec1`), and the section at position 2
is unchanged. -/
theorem homepage_c2_swap_scenario :
    edit_homepage_section envW st123 1 catOidD [prodOid4] (some 3) =
      Except.ok stC2after ∧
    (sortBySno stC2after.sections).map (fun s => s.s_no) = [1, 2, 3] ∧
    stC2after.sections.find? (fun s => s.s_no == 1) = some (setSno 1 sec3) ∧
    stC2after.sections.find? (fun s => s.s_no == 3) =
      some (setFieldsSno catOidD [prodOid4] 3 sec1) ∧
    stC2after.sections.find? (fun s => s.s_no == 2) = some sec2 := by
  refine ⟨by rfl, by decide, by decide, by decide, by decide⟩

/-- C3 as stated is false on the code: neither `list_homepage_sections`
nor `public_homepage` filters out sentinel positions — a section holding
the sentinel position `-1` is returned by both listings. -/
theorem homepage_c3_counterexample :
    (∃ v ∈ list_homepage_sections envW stSentinel, v.s_no = -1) ∧
    (∃ v ∈ public_homepage envW stSentinel, v.s_no = -1) := by
  refine ⟨⟨renderSection envW secSent, by decide, by decide⟩,
    ⟨renderPublicSection envW secSent, by decide, by decide⟩⟩

/-- C3 amended: the listings perform no filtering at all — every stored
section, including one left at the sentinel (negative) position, appears
in the output of `list()` and of the public listing. -/
theorem homepage_c3_amended (env : Env) (st : HomepageState) (sec : Sec)
    (h : sec ∈ st.sections) :
    sec.s_no ∈ (list_homepage_sections env st).map (fun v => v.s_no) ∧
    sec.s_no ∈ (public_homepage env st).map (fun v => v.s_no) :=
  ⟨List.mem_map_of_mem _ (mem_list_of_mem_sections env st sec h),
   List.mem_map_of_mem _ (mem_public_of_mem_sections env st sec h)⟩

/-- Witness for the amended C3: the sentinel-positioned section shows up
(as position `-1`) in both listings of `stSentinel`. -/
theorem homepage_c3_amended_witness :
    ((-1 : Int) ∈ (list_homepage_sections envW stSentinel).map
      (fun v => v.s_no)) ∧
    ((-1 : Int) ∈ (public_homepage envW stSentinel).map (fun v => v.s_no)) :=
  homepage_c3_amended envW stSentinel secSent (by decide)

/-- C5: whenever at least 4 sections exist, `add` fails with
`CapacityExceeded` (400 "Max 4 homepage sections allowed") for every
category and product arguments, valid or not — the capacity check precedes
all reference and argument validation — and the store is unchanged. -/
theorem homepage_c5_capacity_first (env : Env) (st : HomepageState)
    (c : String) (ps : List String) (h : st.sections.length ≥ 4) :
    add_homepage_section env st c ps = Except.error ApiError.maxSections ∧
    applyOp env st (Op.add c ps) = st := by
  have hmain : add_homepage_section env st c ps =
      Except.error ApiError.maxSections := by
    unfold add_homepage_section
    rw [if_pos h]
  refine ⟨hmain, ?_⟩
  simp only [applyOp, hmain]

/-- Witness for C5: at a 4-section store, `add` with a malformed category
id and an empty product list still reports `CapacityExceeded`. -/
theorem homepage_c5_witness :
    add_homepage_section envW st4 badOid [] =
      Except.error ApiError.maxSections ∧
    applyOp envW st4 (Op.add badOid []) = st4 :=
  homepage_c5_capacity_first envW st4 badOid [] (by decide)

/-- C7: for every sequence of add/edit/delete operations starting from a
store with at most 4 sections, the store holds at most 4 sections at the
end of every operation, and `list()` never returns more than 4 sections.
Quantifying over all operation lists covers every prefix. -/
theorem homepage_c7_capacity_invariant (env : Env) (st : HomepageState)
    (ops : List Op) (h : st.sections.length ≤ 4) :
    (runOps env st ops).sections.length ≤ 4 ∧
    (list_homepage_sections env (runOps env st ops)).length ≤ 4 := by
  have hlen := runOps_length env st ops h
  exact ⟨hlen, by rw [list_homepage_length]; exact hlen⟩

/-- Witness for C7: from sections at positions 1, 2, 3, two adds (one of
which exceeds capacity and fails) and a swap keep the store at no more
than 4 sections. -/
theorem homepage_c7_witness :
    (runOps envW st123
      [Op.add catOidD [prodOid4], Op.add catOidD [prodOid4],
       Op.edit 1 catOidD [prodOid4] (some 3)]).sections.length ≤ 4 ∧
    (list_homepage_sections envW (runOps envW st123
      [Op.add catOidD [prodOid4], Op.add catOidD [prodOid4],
       Op.edit 1 catOidD [prodOid4] (some 3)])).length ≤ 4 :=
  homepage_c7_capacity_invariant envW st123
    [Op.add catOidD [prodOid4], Op.add catOidD [prodOid4],
     Op.edit 1 catOidD [prodOid4] (some 3)] (by decide)

/-- C4: every successful `add` assigns the new section the position
(maximum existing `s_no`) + 1, defaulting to 1 when no sections exist, and
appends exactly one new document at that position, touching no existing
document. -/
theorem homepage_c4_add_position (env : Env) (st : HomepageState)
    (c : String) (ps : List String) (st2 : HomepageState) (p : Int)
    (h : add_homepage_section env st c ps = Except.ok (st2, p)) :
    p = (match maxSno st.sections with | some m => m + 1 | none => 1) ∧
    ∃ sec, st2.sections = st.sections ++ [sec] ∧ sec.s_no = p := by
  obtain ⟨-, hp, cat, pids, -, -, hst2⟩ := add_ok_cases env st c ps st2 p h
  subst hst2
  exact ⟨hp, ⟨_, rfl, rfl⟩⟩

/-- Witness for C4, the delete-then-add scenario: from sections at
positions 1 and 2, `delete(1)` then a valid `add` yields a new section at
position 3 (max-based, not count-based), and position 1 stays empty. -/
theorem homepage_c4_witness :
    delete_homepage_section st12 1 = Except.ok stW4 ∧
    add_homepage_section envW stW4 catOidD [prodOid4] =
      Except.ok (stW4b, 3) ∧
    ((3 : Int) =
      (match maxSno stW4.sections with | some m => m + 1 | none => 1) ∧
     ∃ sec, stW4b.sections = stW4.sections ++ [sec] ∧ sec.s_no = 3) ∧
    stW4b.sections.find? (fun s => s.s_no == 1) = none := by
  have hmain := homepage_c4_add_position envW stW4 catOidD [prodOid4]
    stW4b 3 (by rfl)
  exact ⟨by rfl, by rfl, hmain, by decide⟩

/-- C6 as stated is false on the code for product references: at a store
whose only section holds one product reference that no longer resolves,
`list()` succeeds but renders the section with an empty product list — the
unresolvable product is omitted, not rendered with a placeholder entry. -/
theorem homepage_c6_counterexample :
    stC6.sections.map (fun s => s.products) = [[prodOid1]] ∧
    list_homepage_sections envC6 stC6 =
      [{ s_no := 1, category_id := catOidA, category_name := "Shoes",
         products := [] }] := by
  exact ⟨by decide, by rfl⟩

/-- C6 amended: `list()` is total and never fails on a dangling reference;
every stored section is rendered, a dangling category reference is
rendered with the placeholder name "N/A", but a dangling product reference
produces no entry at all in the section's product list (it is omitted
rather than rendered with a placeholder). -/
theorem homepage_c6_amended (env : Env) (st : HomepageState) (sec : Sec)
    (h : sec ∈ st.sections) :
    ∃ v ∈ list_homepage_sections env st,
      v.s_no = sec.s_no ∧
      v.category_name = (match findCategory env sec.category_id with
        | some cat => cat.name
        | none => "N/A") ∧
      v.products = (findProducts env sec.products).map
        (fun p => (p.id, p.name, p.display_image)) ∧
      ∀ pid ∈ sec.products, (∀ q ∈ env.products, q.id ≠ pid) →
        ∀ pv ∈ v.products, pv.1 ≠ pid := by
  refine ⟨renderSection env sec, mem_list_of_mem_sections env st sec h,
    rfl, rfl, rfl, ?_⟩
  intro pid hpid hnores pv hpv
  rcases List.mem_map.mp hpv with ⟨q, hq, hpq⟩
  have hqmem : q ∈ env.products := (List.mem_filter.mp hq).1
  rw [← hpq]
  exact hnores q hqmem

/-- Witness for the amended C6 at the dangling-product store: the section
is listed with category name "Shoes" and an empty product list, and the
dangling reference `prodOid1` has no entry. -/
theorem homepage_c6_amended_witness :
    ∃ v ∈ list_homepage_sections envC6 stC6,
      v.s_no = secC6.s_no ∧
      v.category_name = (match findCategory envC6 secC6.category_id with
        | some cat => cat.name
        | none => "N/A") ∧
      v.products = (findProducts envC6 secC6.products).map
        (fun p => (p.id, p.name, p.display_image)) ∧
      ∀ pid ∈ secC6.products, (∀ q ∈ envC6.products, q.id ≠ pid) →
        ∀ pv ∈ v.products, pv.1 ≠ pid :=
  homepage_c6_amended envC6 stC6 secC6 (by decide)

/-- C10: because Python's `data.s_no or s_no` treats `0` as falsy, an
`edit` whose `desired_position` is `0` behaves exactly like an `edit` with
`desired_position` omitted, and a successful such call leaves the position
column of the store unchanged (position `0` is never assigned). -/
theorem homepage_c10_zero_desired_position (env : Env) (st : HomepageState)
    (n : Int) (c : String) (ps : List String) (st2 : HomepageState)
    (h : edit_homepage_section env st n c ps (some 0) = Except.ok st2) :
    edit_homepage_section env st n c ps none = Except.ok st2 ∧
    st2.sections.map (fun s => s.s_no) = st.sections.map (fun s => s.s_no)
    := by
  have hpy : pyOr (some 0) n = pyOr none n := by
    show (if (0 : Int) = 0 then n else 0) = n
    rw [if_pos rfl]
  have hgen : edit_homepage_section env st n c ps (some 0) =
      edit_homepage_section env st n c ps none := by
    unfold edit_homepage_section
    rw [hpy]
  refine ⟨by rw [← hgen]; exact h, ?_⟩
  obtain ⟨cat, pids, cur, -, -, -, -, hbr⟩ :=
    edit_ok_cases env st n c ps (some 0) st2 h
  have hpy0 : pyOr (some 0) n = n := by
    show (if (0 : Int) = 0 then n else 0) = n
    rw [if_pos rfl]
  rcases hbr with ⟨-, hs⟩ | ⟨hne, -⟩
  · rw [hs, updateById_map_sno _ _ (setFields cat pids) (fun d2 => rfl)]
  · exact absurd hpy0 hne

/-- Witness for C10: editing position 1 of the three-section store with
`desired_position = 0` equals the omitted-argument call and keeps the
position column 1, 2, 3. -/
theorem homepage_c10_witness :
    edit_homepage_section envW st123 1 catOidD [prodOid4] none =
      Except.ok stC10 ∧
    stC10.sections.map (fun s => s.s_no) =
      st123.sections.map (fun s => s.s_no) :=
  homepage_c10_zero_desired_position envW st123 1 catOidD [prodOid4] stC10
    (by rfl)

/-- C8: with valid references, an `edit` of an existing section whose
`desired_position` equals the section's current position (or is omitted)
performs a field-only update — the store's position column is unchanged —
and the call is idempotent: repeating it with identical arguments returns
the same stored state as calling it once. -/
theorem homepage_c8_fieldonly_idempotent (env : Env) (st : HomepageState)
    (n : Int) (c : String) (ps : List String) (d : Option Int)
    (cat : String) (pids : List String) (cur : Sec)
    (hC : parseOid c = some cat)
    (hcat : (findCategory env cat).isNone = false)
    (h1 : (ps.length == 0) = false)
    (h2 : ¬ ps.length > 12)
    (hps : parseProductIds ps = Except.ok pids)
    (hcur : st.sections.find? (fun s => s.s_no == n) = some cur)
    (hids : (st.sections.map (fun s => s.id)).Nodup)
    (hd : d = none ∨ d = some n) :
    ∃ st2, edit_homepage_section env st n c ps d = Except.ok st2 ∧
      st2.sections = updateById st.sections cur.id (setFields cat pids) ∧
      st2.sections.map (fun s => s.s_no) =
        st.sections.map (fun s => s.s_no) ∧
      edit_homepage_section env st2 n c ps d = Except.ok st2 := by
  have hpy : pyOr d n = n := by
    rcases hd with h | h <;> subst h
    · rfl
    · show (if n = 0 then n else n) = n
      by_cases h0 : n = 0
      · rw [if_pos h0]
      · rw [if_neg h0]
  refine ⟨_, edit_fieldonly env st n c ps d cat pids cur
    hC hcat h1 h2 hps hcur hpy, rfl, ?_, ?_⟩
  · exact updateById_map_sno st.sections cur.id (setFields cat pids)
      (fun d2 => rfl)
  · -- the second identical call finds the updated document and rewrites
    -- the same field values, reproducing the same state
    have hids2 : (((updateById st.sections cur.id
        (setFields cat pids))).map (fun s => s.id)).Nodup := by
      rw [updateById_map_id st.sections cur.id (setFields cat pids)
        (fun d2 => rfl)]
      exact hids
    have hpred : ((fun s : Sec => s.s_no == n) ∘
        (fun s => if s.id = cur.id then setFields cat pids s else s)) =
        (fun s : Sec => s.s_no == n) := by
      funext s
      by_cases hsc : s.id = cur.id
      · rw [Function.comp_apply, if_pos hsc]
        rfl
      · rw [Function.comp_apply, if_neg hsc]
    have hfind2 : (updateById st.sections cur.id
        (setFields cat pids)).find? (fun s => s.s_no == n) =
        some (setFields cat pids cur) := by
      rw [updateById_eq_map _ _ _ hids, List.find?_map, hpred, hcur]
      dsimp only [Option.map]
      rw [if_pos rfl]
    have hmain := edit_fieldonly env
      { st with sections :=
          (updateById st.sections cur.id (setFields cat pids)) }
      n c ps d cat pids (setFields cat pids cur)
      hC hcat h1 h2 hps hfind2 hpy
    rw [hmain]
    have hsections : updateById
        (updateById st.sections cur.id (setFields cat pids))
        (setFields cat pids cur).id (setFields cat pids) =
        updateById st.sections cur.id (setFields cat pids) := by
      rw [updateById_eq_map _ _ _ hids]
      rw [updateById_eq_map _ _ _
        (by rw [List.map_map]
            have : ((fun s : Sec => s.id) ∘
                (fun s => if s.id = cur.id then setFields cat pids s
                  else s)) = (fun s : Sec => s.id) := by
              funext s
              by_cases hsc : s.id = cur.id
              · rw [Function.comp_apply, if_pos hsc]
                rfl
              · rw [Function.comp_apply, if_neg hsc]
            rw [this]
            exact hids)]
      rw [List.map_map]
      refine List.map_congr_left ?_
      intro a _
      rw [Function.comp_apply]
      by_cases hac : a.id = cur.id
      · rw [if_pos hac,
          if_pos (show (setFields cat pids a).id =
            (setFields cat pids cur).id from hac)]
        rfl
      · rw [if_neg hac,
          if_neg (show ¬(a.id = (setFields cat pids cur).id) from
            fun hcc => hac hcc)]
    rw [hsections]

/-- Witness for C8: a field-only edit of the section at position 2 of the
three-section store, with `desired_position = 2` supplied explicitly. -/
theorem homepage_c8_witness :
    ∃ st2, edit_homepage_section envW st123 2 catOidD [prodOid4] (some 2) =
        Except.ok st2 ∧
      st2.sections = updateById st123.sections sec2.id
        (setFields catOidD [prodOid4]) ∧
      st2.sections.map (fun s => s.s_no) =
        st123.sections.map (fun s => s.s_no) ∧
      edit_homepage_section envW st2 2 catOidD [prodOid4] (some 2) =
        Except.ok st2 :=
  homepage_c8_fieldonly_idempotent envW st123 2 catOidD [prodOid4]
    (some 2) catOidD [prodOid4] sec2 (by rfl) (by decide) (by decide)
    (by decide) (by rfl) (by decide) (by decide) (Or.inr rfl)

/-- C9: with valid references, an `edit` targeting a position at which no
section exists fails with `NotFound` (404 "Homepage section not found")
before any write, so the store — every section's position and fields — is
unchanged. -/
theorem homepage_c9_edit_notfound (env : Env) (st : HomepageState)
    (n : Int) (c : String) (ps : List String) (d : Option Int)
    (cat : String) (pids : List String)
    (hC : parseOid c = some cat)
    (hcat : (findCategory env cat).isNone = false)
    (h1 : (ps.length == 0) = false)
    (h2 : ¬ ps.length > 12)
    (hps : parseProductIds ps = Except.ok pids)
    (hfind : st.sections.find? (fun s => s.s_no == n) = none) :
    edit_homepage_section env st n c ps d =
      Except.error ApiError.sectionNotFound ∧
    applyOp env st (Op.edit n c ps d) = st := by
  have hmain : edit_homepage_section env st n c ps d =
      Except.error ApiError.sectionNotFound := by
    unfold edit_homepage_section
    rw [hC]
    dsimp only
    rw [hcat]
    simp only [Bool.false_eq_true, if_false]
    rw [h1]
    simp only [Bool.false_eq_true, if_false]
    rw [if_neg h2, hps]
    dsimp only
    rw [hfind]
  refine ⟨hmain, ?_⟩
  simp only [applyOp, hmain]

/-- Witness for C9: editing the empty position 99 of the three-section
store with valid references fails `NotFound` and leaves the store as it
was. -/
theorem homepage_c9_witness :
    edit_homepage_section envW st123 99 catOidD [prodOid4] none =
      Except.error ApiError.sectionNotFound ∧
    applyOp envW st123 (Op.edit 99 catOidD [prodOid4] none) = st123 :=
  homepage_c9_edit_notfound envW st123 99 catOidD [prodOid4] none
    catOidD [prodOid4] (by rfl) (by decide) (by decide) (by decide)
    (by rfl) (by decide)

end HomepageSpec
